import Mathlib

/-!
Shallow embedding of the trading-server core: price manipulation
(src/priceHandler.ts and its variants), order intake and deferred
settlement (src/server.ts), and the feed-driven price cache
(the WebSocket variants of priceHandler.ts).

Prices and amounts are embedded as rationals; the store is a pair of
lists (users, orders); each transactional operation is a pure function
from state to state.
-/

namespace TradingServer

/-- Outcome column of an order row: null (pending) until settled, then
win or loss. The code base has no other terminal value. -/
inductive Outcome
  | pending
  | win
  | loss
deriving DecidableEq

/-- One user row: id and balance. -/
structure User where
  id : Nat
  balance : ℚ
deriving DecidableEq

/-- One order row, with the fields written by the intake transaction in
src/server.ts (entryPrice and manipulatedEntryPrice both copied from the
request, payout fixed at 0.8) and the fields written at settlement. -/
structure Order where
  id : Nat
  userId : Nat
  symbolId : Nat
  amount : ℚ
  direction : String
  entryPrice : ℚ
  manipulatedEntryPrice : ℚ
  duration : ℚ
  payout : ℚ
  outcome : Outcome
  exitPrice : Option ℚ
  profitLoss : Option ℚ
deriving DecidableEq

/-- The relevant store state: user rows and order rows. -/
structure State where
  users : List User
  orders : List Order
deriving DecidableEq

/-- Balance of the user with the given id, when present. -/
def State.balanceOf (st : State) (uid : Nat) : Option ℚ :=
  (st.users.find? fun u => u.id == uid).map User.balance

/-- The order row with the given id, when present. -/
def State.findOrder (st : State) (oid : Nat) : Option Order :=
  st.orders.find? fun o => o.id == oid

/-- Pure core of adjustPrice, src/priceHandler.ts lines 52 to 65: the
symbol lookup and the DB write are stripped; the fetched price and the
exposure totals are the arguments. Branch order and constants are as in
the source: the ratio tests run only under the totalValue > 0 guard,
upValue test first. -/
def adjustPrice (binancePrice upValue downValue : ℚ) : ℚ :=
  if 0 < upValue + downValue then
    if 3/5 < upValue / (upValue + downValue) then binancePrice * (998/1000)
    else if 3/5 < downValue / (upValue + downValue) then binancePrice * (1002/1000)
    else binancePrice
  else binancePrice

/-- Pure core of the adjustPrice variant with jitter, part_002 lines 38
to 89: inside the totalValue > 0 guard it tests the down share first,
then the up share, and finally multiplies by
randomFactor = rand * 0.0005 + 0.99975 where rand is the Math.random
draw made inside the function, here made explicit as an argument. -/
def adjustPriceRand (currentPrice upValue downValue rand : ℚ) : ℚ :=
  if 0 < upValue + downValue then
    (if 3/5 < downValue / (upValue + downValue) then currentPrice * (1002/1000)
     else if 3/5 < upValue / (upValue + downValue) then currentPrice * (998/1000)
     else currentPrice) * (rand * (5/10000) + 99975/100000)
  else currentPrice

/-- Division that signals a zero denominator instead of defaulting. -/
def cdiv (a b : ℚ) : Option ℚ :=
  if b = 0 then none else some (a / b)

/-- adjustPrice with every division routed through cdiv, to state that
the division-by-zero branch is unreachable. -/
def adjustPriceChecked (binancePrice upValue downValue : ℚ) : Option ℚ :=
  if 0 < upValue + downValue then
    match cdiv upValue (upValue + downValue), cdiv downValue (upValue + downValue) with
    | some u, some d =>
        some (if 3/5 < u then binancePrice * (998/1000)
              else if 3/5 < d then binancePrice * (1002/1000)
              else binancePrice)
    | _, _ => none
  else some binancePrice

/-- adjustPriceRand with every division routed through cdiv. -/
def adjustPriceRandChecked (currentPrice upValue downValue rand : ℚ) : Option ℚ :=
  if 0 < upValue + downValue then
    match cdiv upValue (upValue + downValue), cdiv downValue (upValue + downValue) with
    | some u, some d =>
        some ((if 3/5 < d then currentPrice * (1002/1000)
               else if 3/5 < u then currentPrice * (998/1000)
               else currentPrice) * (rand * (5/10000) + 99975/100000))
    | _, _ => none
  else some currentPrice

/-- Last-second bias applied by the settlement callback, src/server.ts
lines 124 to 128: multiply by 0.998 when upValue exceeds downValue, by
1.002 when downValue exceeds upValue, with no ratio threshold. -/
def settlementAdjust (finalPrice upValue downValue : ℚ) : ℚ :=
  if upValue > downValue then finalPrice * (998/1000)
  else if downValue > upValue then finalPrice * (1002/1000)
  else finalPrice

/-- getOrderTotals, src/priceHandler.ts lines 23 to 37: sums of amount
over orders of the symbol whose outcome is still null, grouped by
direction. -/
def getOrderTotals (orders : List Order) (symbolId : Nat) : ℚ × ℚ :=
  (((orders.filter fun o =>
      decide (o.symbolId = symbolId ∧ o.outcome = Outcome.pending ∧ o.direction = "up")).map
        Order.amount).sum,
   ((orders.filter fun o =>
      decide (o.symbolId = symbolId ∧ o.outcome = Outcome.pending ∧ o.direction = "down")).map
        Order.amount).sum)

/-- Win test of the settlement callback, src/server.ts lines 130 to 133:
the string "up" takes the greater-than branch, every other direction
string takes the less-than branch. -/
def isWin (direction : String) (entryPrice finalPrice : ℚ) : Bool :=
  if direction = "up" then decide (entryPrice < finalPrice)
  else decide (finalPrice < entryPrice)

/-- Profit or loss written by the settlement callback, src/server.ts
line 135: amount times 0.8 on a win, minus amount on a loss. -/
def settleProfitLoss (direction : String) (entryPrice finalPrice amount : ℚ) : ℚ :=
  if isWin direction entryPrice finalPrice then amount * (8/10) else -amount

/-- User-row effect of the settlement transaction, src/server.ts lines
147 to 152: on a win the matching user is credited amount plus
profitLoss; on a loss the update carries no data change. -/
def settleUserUpdate (userId : Nat) (direction : String)
    (entryPrice finalPrice amount : ℚ) (u : User) : User :=
  if u.id = userId ∧ isWin direction entryPrice finalPrice = true then
    { u with balance :=
        u.balance + (amount + settleProfitLoss direction entryPrice finalPrice amount) }
  else u

/-- Order-row effect of the settlement transaction, src/server.ts lines
138 to 146: the matching order gets exitPrice, outcome and profitLoss
written unconditionally, with no check that outcome is still null. -/
def settleOrderUpdate (orderId : Nat) (direction : String)
    (entryPrice finalPrice amount : ℚ) (o : Order) : Order :=
  if o.id = orderId then
    { o with exitPrice := some finalPrice,
             outcome := if isWin direction entryPrice finalPrice then Outcome.win
                        else Outcome.loss,
             profitLoss := some (settleProfitLoss direction entryPrice finalPrice amount) }
  else o

/-- The settlement transaction, src/server.ts lines 137 to 153: one
atomic write of the order row and the user row. -/
def settleOrderTx (st : State) (orderId userId : Nat) (direction : String)
    (amount entryPrice finalPrice : ℚ) : State where
  users := st.users.map (settleUserUpdate userId direction entryPrice finalPrice amount)
  orders := st.orders.map (settleOrderUpdate orderId direction entryPrice finalPrice amount)

/-- JavaScript or-else over optional prices: a present but zero price is
falsy and falls through to the second operand, as in
manipulatedPrices.get(symbol) or-else getCurrentPrice(symbol). -/
def jsOr (a b : Option ℚ) : Option ℚ :=
  match a with
  | some x => if x = 0 then b else some x
  | none => b

/-- The settlement callback, src/server.ts lines 115 to 157: read the
price from the in-memory manipulated-price map, falling back to the
price cache; if neither yields a truthy price, return with no state
change; otherwise recompute exposure totals from the store, apply the
last-second bias, and run the settlement transaction with the closure
captured direction, amount, userId and order snapshot. -/
def settleCallback (st : State) (ord : Order) (direction : String) (amount : ℚ)
    (userId : Nat) (manipPrice cachePrice : Option ℚ) : State :=
  match jsOr manipPrice cachePrice with
  | none => st
  | some p =>
    if p = 0 then st
    else
      settleOrderTx st ord.id userId direction amount ord.manipulatedEntryPrice
        (settlementAdjust p (getOrderTotals st.orders ord.symbolId).1
          (getOrderTotals st.orders ord.symbolId).2)

/-- Rejection reasons the intake route can return, src/server.ts lines
83 to 90: the 400 responses Invalid input and Insufficient balance. A
missing user falls into the Insufficient balance branch. -/
inductive IntakeError
  | invalidInput
  | insufficientBalance
deriving DecidableEq

/-- The request body fields read by the intake route. -/
structure OrderRequest where
  userId : Nat
  symbolId : Nat
  symbol : String
  amount : ℚ
  direction : String
  entryPrice : ℚ
  duration : ℚ
deriving DecidableEq

/-- The order row created by the intake transaction, src/server.ts lines
95 to 107: entryPrice and manipulatedEntryPrice both from the request,
payout 0.8, outcome initially null. -/
def mkOrder (req : OrderRequest) (newId : Nat) : Order :=
  { id := newId, userId := req.userId, symbolId := req.symbolId,
    amount := req.amount, direction := req.direction,
    entryPrice := req.entryPrice, manipulatedEntryPrice := req.entryPrice,
    duration := req.duration, payout := 8/10,
    outcome := Outcome.pending, exitPrice := none, profitLoss := none }

/-- The intake route, src/server.ts lines 83 to 112: reject when symbol,
amount, direction or duration is falsy; reject as Insufficient balance
when the user is missing or balance < amount; otherwise atomically
create the order and debit the balance. -/
def intake (st : State) (req : OrderRequest) (newId : Nat) :
    Except IntakeError (State × Order) :=
  if req.symbol = "" ∨ req.amount = 0 ∨ req.direction = "" ∨ req.duration = 0 then
    Except.error IntakeError.invalidInput
  else
    match st.users.find? (fun u => u.id == req.userId) with
    | none => Except.error IntakeError.insufficientBalance
    | some dbUser =>
      if dbUser.balance < req.amount then Except.error IntakeError.insufficientBalance
      else
        Except.ok
          ({ users := st.users.map fun u =>
               if u.id = req.userId then { u with balance := u.balance - req.amount } else u,
             orders := st.orders ++ [mkOrder req newId] }, mkOrder req newId)

/-- True on the success branch of the intake route. -/
def intakeAccepted (r : Except IntakeError (State × Order)) : Bool :=
  match r with
  | Except.ok _ => true
  | Except.error _ => false

/-- One inbound Binance frame as consumed by the message handler in
part_002 lines 101 to 114: event type e, symbol s, last price c. The
frame also carries an event time, which the handler never reads; it is
kept here to state ordering claims. -/
structure TickerFrame where
  e : String
  s : String
  c : ℚ
  eventTime : Nat
deriving DecidableEq

/-- Map.set on the price cache: replace the value under the key, or
append the key. -/
def priceCacheSet (cache : List (String × ℚ)) (sym : String) (price : ℚ) :
    List (String × ℚ) :=
  match cache with
  | [] => [(sym, price)]
  | (k, v) :: rest =>
    if k = sym then (k, price) :: rest else (k, v) :: priceCacheSet rest sym price

/-- Map.get on the price cache. -/
def priceCacheGet (cache : List (String × ℚ)) (sym : String) : Option ℚ :=
  match cache with
  | [] => none
  | (k, v) :: rest => if k = sym then some v else priceCacheGet rest sym

/-- The Binance message handler, part_002 lines 101 to 114: on a
24hrTicker frame, write the last price into the cache under the symbol;
every other frame is dropped. The event time of the frame is not
consulted. -/
def onBinanceMessage (cache : List (String × ℚ)) (msg : TickerFrame) :
    List (String × ℚ) :=
  if msg.e = "24hrTicker" then priceCacheSet cache msg.s msg.c else cache

/-- Concrete pending order used in the double-settlement scenario. -/
def c1Order (a : ℚ) : Order :=
  { id := 1, userId := 1, symbolId := 1, amount := a, direction := "up",
    entryPrice := 100, manipulatedEntryPrice := 100, duration := 60, payout := 8/10,
    outcome := Outcome.pending, exitPrice := none, profitLoss := none }

/-- Store with one user of balance b and the one pending order. -/
def c1State (b a : ℚ) : State :=
  { users := [{ id := 1, balance := b }], orders := [c1Order a] }

/-- First settlement invocation on the scenario state, with a cached
manipulated price of 200 against an entry price of 100. -/
def c1Once (b a : ℚ) : State :=
  settleCallback (c1State b a) (c1Order a) "up" a 1 (some 200) none

/-- Second settlement invocation for the same order, as fired by a
duplicate timer or a restart. -/
def c1Twice (b a : ℚ) : State :=
  settleCallback (c1Once b a) (c1Order a) "up" a 1 (some 200) none

/-- The scenario order as the first settlement invocation leaves it:
exposure at fire time is all-up, so the bias lowers the cached price 200
to 199.6, still a win against entry 100. -/
def c1OrderSettledOnce (a : ℚ) : Order :=
  { id := 1, userId := 1, symbolId := 1, amount := a, direction := "up",
    entryPrice := 100, manipulatedEntryPrice := 100, duration := 60, payout := 8/10,
    outcome := Outcome.win, exitPrice := some (1996/10), profitLoss := some (a * (8/10)) }

/-- The scenario order after a second settlement invocation: exposure is
now empty, so the bias leaves the price 200 unchanged; the outcome is
rewritten and the credit repeated. -/
def c1OrderSettledTwice (a : ℚ) : Order :=
  { id := 1, userId := 1, symbolId := 1, amount := a, direction := "up",
    entryPrice := 100, manipulatedEntryPrice := 100, duration := 60, payout := 8/10,
    outcome := Outcome.win, exitPrice := some 200, profitLoss := some (a * (8/10)) }

/-- Pending order used to witness the settlement transaction
characterization. -/
def c2wOrder : Order :=
  { id := 2, userId := 1, symbolId := 1, amount := 10, direction := "up",
    entryPrice := 100, manipulatedEntryPrice := 100, duration := 60, payout := 8/10,
    outcome := Outcome.pending, exitPrice := none, profitLoss := none }

/-- Store with one funded user and one pending order, used to witness
the settlement transaction characterization. -/
def c2wState : State :=
  { users := [{ id := 1, balance := 50 }], orders := [c2wOrder] }

/-- Request violating amount > 0 and direction membership, which the
intake route nevertheless accepts. -/
def c4Request : OrderRequest :=
  { userId := 1, symbolId := 1, symbol := "BTCUSDT", amount := -5,
    direction := "sideways", entryPrice := 100, duration := 60 }

/-- Store with one user of balance 0 and no orders. -/
def c4State : State :=
  { users := [{ id := 1, balance := 0 }], orders := [] }

/-- Well-formed request used to witness the intake characterization. -/
def c4wRequest : OrderRequest :=
  { userId := 1, symbolId := 1, symbol := "BTCUSDT", amount := 5,
    direction := "up", entryPrice := 100, duration := 60 }

/-- Store with one funded user and no orders. -/
def c4wState : State :=
  { users := [{ id := 1, balance := 100 }], orders := [] }

/-- Expected store after the witness request is accepted: the balance is
debited by the staked amount and the order row appended. -/
def c4wStateAfter : State :=
  { users := [{ id := 1, balance := 100 - 5 }], orders := [mkOrder c4wRequest 1] }

/-- Frame observed at event time 5. -/
def c6Frame1 : TickerFrame :=
  { e := "24hrTicker", s := "BTCUSDT", c := 100, eventTime := 5 }

/-- Frame observed earlier, at event time 3, arriving second. -/
def c6Frame2 : TickerFrame :=
  { e := "24hrTicker", s := "BTCUSDT", c := 99, eventTime := 3 }

/-- Frame used to witness the last-arrival-wins behaviour. -/
def c6wFrame : TickerFrame :=
  { e := "24hrTicker", s := "ETHUSDT", c := 42, eventTime := 7 }

/-- Pending order awaiting settlement while no price source has a value. -/
def c7Order : Order :=
  { id := 1, userId := 1, symbolId := 1, amount := 10, direction := "up",
    entryPrice := 100, manipulatedEntryPrice := 100, duration := 60, payout := 8/10,
    outcome := Outcome.pending, exitPrice := none, profitLoss := none }

/-- Store holding the user whose stake was already debited and the
pending order. -/
def c7State : State :=
  { users := [{ id := 1, balance := 0 }], orders := [c7Order] }

/-- Mapping a function that preserves the value of the search predicate
commutes with find?, used to trace a row through a store update. -/
theorem find?_map_preserve {α : Type} (l : List α) (f : α → α) (p : α → Bool)
    (hp : ∀ a, p (f a) = p a) :
    (l.map f).find? p = (l.find? p).map f := by
  rw [List.find?_map]
  have hpf : (p ∘ f) = p := funext hp
  rw [hpf]

/-- Division-free form of adjustPrice on non-negative exposures: the up
share exceeds 0.6 exactly when 3 times the down total is below 2 times
the up total, and symmetrically. -/
theorem adjustPrice_eq_cases (binancePrice upValue downValue : ℚ)
    (hu : 0 ≤ upValue) (hd : 0 ≤ downValue) :
    adjustPrice binancePrice upValue downValue =
      if 3 * downValue < 2 * upValue then binancePrice * (998/1000)
      else if 3 * upValue < 2 * downValue then binancePrice * (1002/1000)
      else binancePrice := by
  unfold adjustPrice
  by_cases ht : 0 < upValue + downValue
  · have h1 : (3/5 < upValue / (upValue + downValue)) ↔ 3 * downValue < 2 * upValue := by
      rw [lt_div_iff ht]
      constructor <;> intro h <;> linarith
    have h2 : (3/5 < downValue / (upValue + downValue)) ↔ 3 * upValue < 2 * downValue := by
      rw [lt_div_iff ht]
      constructor <;> intro h <;> linarith
    rw [if_pos ht]
    simp only [h1, h2]
  · push_neg at ht
    have hu0 : upValue = 0 := le_antisymm (by linarith) hu
    have hd0 : downValue = 0 := le_antisymm (by linarith) hd
    subst hu0
    subst hd0
    norm_num

/-- Division-free form of the jitter variant on non-negative exposures
with positive total. -/
theorem adjustPriceRand_eq_cases (currentPrice upValue downValue rand : ℚ)
    (hu : 0 ≤ upValue) (hd : 0 ≤ downValue) (ht : 0 < upValue + downValue) :
    adjustPriceRand currentPrice upValue downValue rand =
      (if 3 * upValue < 2 * downValue then currentPrice * (1002/1000)
       else if 3 * downValue < 2 * upValue then currentPrice * (998/1000)
       else currentPrice) * (rand * (5/10000) + 99975/100000) := by
  unfold adjustPriceRand
  have h1 : (3/5 < upValue / (upValue + downValue)) ↔ 3 * downValue < 2 * upValue := by
    rw [lt_div_iff ht]
    constructor <;> intro h <;> linarith
  have h2 : (3/5 < downValue / (upValue + downValue)) ↔ 3 * upValue < 2 * downValue := by
    rw [lt_div_iff ht]
    constructor <;> intro h <;> linarith
  rw [if_pos ht]
  simp only [h1, h2]

/-- C10: in every variant of the price-adjustment function the exposure
shares are computed only under the guard totalValue > 0, so with every
division routed through a zero-signalling division the function still
returns a value on all inputs, equal to the unchecked one. -/
theorem c10_ratio_division_guarded (binancePrice upValue downValue rand : ℚ) :
    adjustPriceChecked binancePrice upValue downValue =
      some (adjustPrice binancePrice upValue downValue) ∧
    adjustPriceRandChecked binancePrice upValue downValue rand =
      some (adjustPriceRand binancePrice upValue downValue rand) := by
  constructor <;>
    · simp only [adjustPriceChecked, adjustPrice, adjustPriceRandChecked, adjustPriceRand, cdiv]
      by_cases ht : 0 < upValue + downValue
      · simp [ht, ne_of_gt ht]
      · simp [ht]

/-- C5: for every raw price and non-negative exposure pair, adjustPrice
returns the raw price when the exposure total is zero, biases by 0.998
when the up share exceeds 0.6, by 1.002 when the down share exceeds 0.6,
and otherwise leaves the price unchanged; in particular
publish(100,70,30) = 99.8, publish(100,30,70) = 100.2 and
publish(100,50,50) = 100. -/
theorem c5_publish_branch_structure (rawPrice upAmount downAmount : ℚ)
    (hu : 0 ≤ upAmount) (hd : 0 ≤ downAmount) :
    (adjustPrice rawPrice upAmount downAmount =
      if upAmount + downAmount = 0 then rawPrice
      else if 3/5 < upAmount / (upAmount + downAmount) then rawPrice * (998/1000)
      else if 3/5 < downAmount / (upAmount + downAmount) then rawPrice * (1002/1000)
      else rawPrice) ∧
    adjustPrice 100 70 30 = 998/10 ∧
    adjustPrice 100 30 70 = 1002/10 ∧
    adjustPrice 100 50 50 = 100 := by
  refine ⟨?_, by norm_num [adjustPrice], by norm_num [adjustPrice], by norm_num [adjustPrice]⟩
  unfold adjustPrice
  rcases eq_or_lt_of_le (add_nonneg hu hd) with h | h
  · rw [if_neg (by rw [← h]; exact lt_irrefl 0), if_pos h.symm]
  · rw [if_pos h, if_neg (ne_of_gt h)]

/-- C5 witness: the theorem applied at rawPrice 100, exposures 70 and 30. -/
theorem c5_witness : adjustPrice 100 70 30 = 998/10 :=
  (c5_publish_branch_structure 100 70 30 (by norm_num) (by norm_num)).2.1

/-- C8: for positive raw price, non-negative exposures with positive
total, and a random draw in the unit interval, both the plain and the
jitter variant stay within 0.3 percent of the raw price. -/
theorem c8_publish_bounded (rawPrice upAmount downAmount rand : ℚ)
    (hraw : 0 < rawPrice) (hu : 0 ≤ upAmount) (hd : 0 ≤ downAmount)
    (hsum : 0 < upAmount + downAmount) (hr0 : 0 ≤ rand) (hr1 : rand < 1) :
    rawPrice * (997/1000) ≤ adjustPrice rawPrice upAmount downAmount ∧
    adjustPrice rawPrice upAmount downAmount ≤ rawPrice * (1003/1000) ∧
    rawPrice * (997/1000) ≤ adjustPriceRand rawPrice upAmount downAmount rand ∧
    adjustPriceRand rawPrice upAmount downAmount rand ≤ rawPrice * (1003/1000) := by
  rw [adjustPrice_eq_cases _ _ _ hu hd, adjustPriceRand_eq_cases _ _ _ _ hu hd hsum]
  refine ⟨?_, ?_, ?_, ?_⟩ <;> split_ifs <;> nlinarith

/-- C8 witness: the theorem applied at rawPrice 100, exposures 70 and
30, random draw one half. -/
theorem c8_witness :
    (100 : ℚ) * (997/1000) ≤ adjustPriceRand 100 70 30 (1/2) ∧
    adjustPriceRand 100 70 30 (1/2) ≤ (100 : ℚ) * (1003/1000) :=
  ⟨(c8_publish_bounded 100 70 30 (1/2) (by norm_num) (by norm_num) (by norm_num)
      (by norm_num) (by norm_num) (by norm_num)).2.2.1,
   (c8_publish_bounded 100 70 30 (1/2) (by norm_num) (by norm_num) (by norm_num)
      (by norm_num) (by norm_num) (by norm_num)).2.2.2⟩

/-- C3 counterexample: at raw price 100 with exposures 60 up and 40 down
the settlement bias yields 99.8 while adjustPrice, whose up share 0.6
does not exceed the 0.6 threshold, yields 100 — so the settlement price
computation is not the live-publish function. -/
theorem c3_counterexample :
    settlementAdjust 100 60 40 = 998/10 ∧ adjustPrice 100 60 40 = 100 ∧
    settlementAdjust 100 60 40 ≠ adjustPrice 100 60 40 := by
  norm_num [settlementAdjust, adjustPrice]

/-- C3 amended: the settlement flow applies its own bias rule — 0.998
whenever the up total strictly exceeds the down total, 1.002 whenever
the down total strictly exceeds the up total, with no 0.6 ratio
threshold; for a positive raw price it agrees with the live-publish
function adjustPrice exactly when the exposures are equal or one side
holds a share above 0.6. -/
theorem c3_amended (rawPrice upAmount downAmount : ℚ)
    (hraw : 0 < rawPrice) (hu : 0 ≤ upAmount) (hd : 0 ≤ downAmount) :
    (settlementAdjust rawPrice upAmount downAmount =
      if downAmount < upAmount then rawPrice * (998/1000)
      else if upAmount < downAmount then rawPrice * (1002/1000)
      else rawPrice) ∧
    (settlementAdjust rawPrice upAmount downAmount =
        adjustPrice rawPrice upAmount downAmount ↔
      upAmount = downAmount ∨ 3 * downAmount < 2 * upAmount ∨
        3 * upAmount < 2 * downAmount) := by
  have hform : settlementAdjust rawPrice upAmount downAmount =
      if downAmount < upAmount then rawPrice * (998/1000)
      else if upAmount < downAmount then rawPrice * (1002/1000)
      else rawPrice := by
    simp only [settlementAdjust, gt_iff_lt]
  refine ⟨hform, ?_⟩
  rw [hform, adjustPrice_eq_cases _ _ _ hu hd]
  constructor
  · intro heq
    by_contra hc
    push_neg at hc
    obtain ⟨hne, hnd, hnu⟩ := hc
    rcases lt_trichotomy upAmount downAmount with h | h | h
    · rw [if_neg (by linarith), if_pos h, if_neg (by linarith),
        if_neg (by linarith)] at heq
      linarith
    · exact hne h
    · rw [if_pos h, if_neg (by linarith), if_neg (by linarith)] at heq
      linarith
  · intro hc
    rcases hc with he | h2 | h2
    · subst he
      rw [if_neg (lt_irrefl _), if_neg (lt_irrefl _), if_neg (by linarith),
        if_neg (by linarith)]
    · rw [if_pos (by linarith), if_pos h2]
    · rw [if_neg (by linarith), if_pos (by linarith), if_neg (by linarith), if_pos h2]

/-- C3 witness: the amended equivalence applied at raw price 100 with
exposures 70 and 30, where the up share 0.7 exceeds the threshold and
the two computations agree. -/
theorem c3_witness : settlementAdjust 100 70 30 = adjustPrice 100 70 30 :=
  (c3_amended 100 70 30 (by norm_num) (by norm_num) (by norm_num)).2.mpr (by norm_num)

/-- C9 counterexample: two runs of the jitter variant at the same raw
price 100 and exposures 70 and 30, with internal random draws 0 and one
half, return different published prices. -/
theorem c9_counterexample :
    adjustPriceRand 100 70 30 0 ≠ adjustPriceRand 100 70 30 (1/2) := by
  norm_num [adjustPriceRand]

/-- C9 amended: the plain adjustPrice variant is a pure function of raw
price and exposures, but the jitter variant multiplies by a factor of a
Math.random draw made inside the function, so with positive raw price
and positive exposure total, two runs with the same declared inputs and
different internal draws always return different prices — the
randomization is internal, not injected. -/
theorem c9_amended (currentPrice upValue downValue r1 r2 : ℚ)
    (hp : 0 < currentPrice) (hu : 0 ≤ upValue) (hd : 0 ≤ downValue)
    (ht : 0 < upValue + downValue) (hne : r1 ≠ r2) :
    adjustPriceRand currentPrice upValue downValue r1 ≠
      adjustPriceRand currentPrice upValue downValue r2 := by
  rw [adjustPriceRand_eq_cases _ _ _ _ hu hd ht, adjustPriceRand_eq_cases _ _ _ _ hu hd ht]
  intro heq
  apply hne
  have hB : 0 < (if 3 * upValue < 2 * downValue then currentPrice * (1002/1000)
                 else if 3 * downValue < 2 * upValue then currentPrice * (998/1000)
                 else currentPrice) := by
    split_ifs <;> nlinarith
  have hFF := mul_left_cancel₀ (ne_of_gt hB) heq
  linarith

/-- C9 witness: the amended theorem applied at raw price 100, exposures
70 and 30, draws 0 and one half. -/
theorem c9_witness : adjustPriceRand 100 70 30 0 ≠ adjustPriceRand 100 70 30 (1/4) :=
  c9_amended 100 70 30 0 (1/4) (by norm_num) (by norm_num) (by norm_num)
    (by norm_num) (by norm_num)

/-- Reading a key just written through priceCacheSet yields the written
value: the cache is last-arrival-wins. -/
theorem priceCacheGet_set (cache : List (String × ℚ)) (sym : String) (price : ℚ) :
    priceCacheGet (priceCacheSet cache sym price) sym = some price := by
  induction cache with
  | nil => simp [priceCacheSet, priceCacheGet]
  | cons kv rest ih =>
    obtain ⟨k, v⟩ := kv
    by_cases hk : k = sym
    · simp [priceCacheSet, priceCacheGet, hk]
    · simp [priceCacheSet, priceCacheGet, hk, ih]

/-- C6 counterexample: a frame observed at event time 5 and then a frame
observed at event time 3 for the same symbol leave the time-3 value 99
in the cache, not the time-5 value 100 — the write with the older
observation overwrites the newer one. -/
theorem c6_counterexample :
    c6Frame2.eventTime < c6Frame1.eventTime ∧
    priceCacheGet (onBinanceMessage (onBinanceMessage [] c6Frame1) c6Frame2) "BTCUSDT" =
      some 99 ∧ (99 : ℚ) ≠ 100 :=
  ⟨by decide, rfl, by norm_num⟩

/-- C6 amended: the cache write is unconditional — after any 24hrTicker
frame is handled, the cache holds the price of that frame for its
symbol, whatever was stored before and whatever the observation times
are; cached prices are ordered by arrival, not by observation recency. -/
theorem c6_amended (cache : List (String × ℚ)) (msg : TickerFrame)
    (h : msg.e = "24hrTicker") :
    priceCacheGet (onBinanceMessage cache msg) msg.s = some msg.c := by
  unfold onBinanceMessage
  rw [if_pos h]
  exact priceCacheGet_set cache msg.s msg.c

/-- C6 witness: the amended theorem applied to an empty cache and a
concrete ticker frame. -/
theorem c6_witness :
    priceCacheGet (onBinanceMessage [] c6wFrame) c6wFrame.s = some c6wFrame.c :=
  c6_amended [] c6wFrame rfl

/-- C7 counterexample: with both price sources empty, the settlement
invocation returns the store unchanged — the order stays pending with
its stake already debited; no retry is scheduled and no unresolved state
exists in the flow. -/
theorem c7_counterexample :
    settleCallback c7State c7Order "up" 10 1 none none = c7State ∧
    (c7State.findOrder 1).map Order.outcome = some Outcome.pending :=
  ⟨rfl, rfl⟩

/-- C7 amended: when neither the manipulated-price map nor the price
cache yields a truthy price, the settlement callback returns
immediately with no state change: the order remains pending indefinitely
with its stake debited, with no retry and no unresolved marking. -/
theorem c7_amended (st : State) (ord : Order) (direction : String) (amount : ℚ)
    (userId : Nat) (manipPrice cachePrice : Option ℚ)
    (h : jsOr manipPrice cachePrice = none ∨ jsOr manipPrice cachePrice = some 0) :
    settleCallback st ord direction amount userId manipPrice cachePrice = st := by
  unfold settleCallback
  rcases h with h | h <;> rw [h] <;> simp

/-- C7 witness: the amended theorem applied to the concrete pending
order store with a present-but-zero price in both sources. -/
theorem c7_witness :
    settleCallback c7State c7Order "up" 10 1 (some 0) (some 0) = c7State :=
  c7_amended c7State c7Order "up" 10 1 (some 0) (some 0) (Or.inr rfl)

/-- C2: for every settled order the outcome is win exactly when
(direction up and settlement price above entry) or (direction down and
settlement price below entry), otherwise loss — ties settle as loss;
profit/loss is amount times the 0.8 payout ratio on a win and minus
amount on a loss; and the user is credited amount plus profit/loss
exactly on a win, with no balance change on a loss. -/
theorem c2_settlement_correct (st : State) (oid uid : Nat) (direction : String)
    (amount entryPrice finalPrice b : ℚ)
    (hdir : direction = "up" ∨ direction = "down")
    (hb : st.balanceOf uid = some b) :
    (((settleOrderTx st oid uid direction amount entryPrice finalPrice).findOrder oid).map
        Order.outcome =
      (st.findOrder oid).map fun _ =>
        if (direction = "up" ∧ entryPrice < finalPrice) ∨
            (direction = "down" ∧ finalPrice < entryPrice)
        then Outcome.win else Outcome.loss) ∧
    (((settleOrderTx st oid uid direction amount entryPrice finalPrice).findOrder oid).map
        Order.profitLoss =
      (st.findOrder oid).map fun _ =>
        some (if (direction = "up" ∧ entryPrice < finalPrice) ∨
            (direction = "down" ∧ finalPrice < entryPrice)
        then amount * (8/10) else -amount)) ∧
    ((settleOrderTx st oid uid direction amount entryPrice finalPrice).balanceOf uid =
      some (if (direction = "up" ∧ entryPrice < finalPrice) ∨
          (direction = "down" ∧ finalPrice < entryPrice)
        then b + (amount + amount * (8/10)) else b)) := by
  have hW : isWin direction entryPrice finalPrice = true ↔
      ((direction = "up" ∧ entryPrice < finalPrice) ∨
       (direction = "down" ∧ finalPrice < entryPrice)) := by
    rcases hdir with h | h <;> subst h <;>
      simp [isWin, show ("up" : String) ≠ "down" by decide,
        show ("down" : String) ≠ "up" by decide]
  have hordermap :
      (settleOrderTx st oid uid direction amount entryPrice finalPrice).findOrder oid =
        (st.findOrder oid).map (settleOrderUpdate oid direction entryPrice finalPrice amount) := by
    unfold State.findOrder
    simp only [settleOrderTx]
    exact find?_map_preserve _ _ _ (fun o => by
      dsimp only [settleOrderUpdate]
      split <;> rfl)
  refine ⟨?_, ?_, ?_⟩
  · rw [hordermap]
    cases hfo : st.findOrder oid with
    | none => rfl
    | some o =>
      have hoid : o.id = oid := by
        have := List.find?_some hfo
        simpa using this
      simp only [Option.map_some']
      unfold settleOrderUpdate
      rw [if_pos hoid]
      by_cases hw : isWin direction entryPrice finalPrice = true
      · simp [hw, hW.mp hw]
      · simp only [hw, if_false, Bool.false_eq_true]
        rw [if_neg (fun hcon => hw (hW.mpr hcon))]
  · rw [hordermap]
    cases hfo : st.findOrder oid with
    | none => rfl
    | some o =>
      have hoid : o.id = oid := by
        have := List.find?_some hfo
        simpa using this
      simp only [Option.map_some']
      unfold settleOrderUpdate settleProfitLoss
      rw [if_pos hoid]
      by_cases hw : isWin direction entryPrice finalPrice = true
      · simp [hw, hW.mp hw]
      · simp only [hw, if_false, Bool.false_eq_true]
        rw [if_neg (fun hcon => hw (hW.mpr hcon))]
  · have husermap :
        (settleOrderTx st oid uid direction amount entryPrice finalPrice).balanceOf uid =
          ((st.users.find? fun u => u.id == uid).map
            (settleUserUpdate uid direction entryPrice finalPrice amount)).map User.balance := by
      unfold State.balanceOf
      simp only [settleOrderTx]
      rw [find?_map_preserve _ _ _ (fun u => by
        dsimp only [settleUserUpdate]
        split <;> rfl)]
    rw [husermap]
    unfold State.balanceOf at hb
    obtain ⟨u, hu, hub⟩ := Option.map_eq_some'.mp hb
    rw [hu]
    have huid : u.id = uid := by simpa using List.find?_some hu
    simp only [Option.map_some']
    unfold settleUserUpdate settleProfitLoss
    by_cases hw : isWin direction entryPrice finalPrice = true
    · rw [if_pos ⟨huid, hw⟩, if_pos (hW.mp hw), if_pos hw, hub]
    · rw [if_neg (fun hcon => hw hcon.2), if_neg (fun hcon => hw (hW.mpr hcon)), hub]

/-- C2 witness: the theorem applied to a concrete funded user and
pending order, settled at price 200 against entry 100. -/
theorem c2_witness :
    (settleOrderTx c2wState 2 1 "up" 10 100 200).balanceOf 1 =
      some (if ("up" = "up" ∧ (100 : ℚ) < 200) ∨ ("up" = "down" ∧ (200 : ℚ) < 100)
            then 50 + (10 + 10 * (8/10)) else 50) :=
  (c2_settlement_correct c2wState 2 1 "up" 10 100 200 50 (Or.inl rfl) rfl).2.2

/-- C4 counterexample: the intake route accepts a request with negative
amount and a direction outside up/down from a user with zero balance,
and reports a missing user as Insufficient balance rather than as an
unknown-entity reason — so intake does not reject every
precondition-violating request with a distinguishable reason. -/
theorem c4_counterexample :
    c4Request.amount < 0 ∧ c4Request.direction ≠ "up" ∧ c4Request.direction ≠ "down" ∧
    intakeAccepted (intake c4State c4Request 1) = true ∧
    intake c4State { c4Request with userId := 2, amount := 5, direction := "up" } 1 =
      Except.error IntakeError.insufficientBalance := by
  refine ⟨by norm_num [c4Request], by decide, by decide, rfl, rfl⟩

/-- C4 amended: intake validates only truthiness — it rejects empty
symbol or direction and zero amount or duration as invalid input, but
accepts negative amounts and durations and arbitrary direction strings;
it never checks that the symbol exists; a missing user or a balance
below the amount is reported as insufficient balance. Whenever a request
is accepted, the user existed with balance at least the amount, and the
order creation and the balance debit both happen in the one returned
store (rejections return no store at all). -/
theorem c4_amended (st : State) (req : OrderRequest) (n : Nat) (st1 : State) (ord : Order)
    (h : intake st req n = Except.ok (st1, ord)) :
    req.symbol ≠ "" ∧ req.amount ≠ 0 ∧ req.direction ≠ "" ∧ req.duration ≠ 0 ∧
    (∃ b, st.balanceOf req.userId = some b ∧ req.amount ≤ b ∧
      st1.balanceOf req.userId = some (b - req.amount)) ∧
    st1.orders = st.orders ++ [mkOrder req n] ∧ ord = mkOrder req n ∧
    ord.outcome = Outcome.pending ∧ ord.amount = req.amount ∧ ord.payout = 8/10 := by
  unfold intake at h
  split at h
  · exact absurd h (by simp)
  · rename_i hvalid
    push_neg at hvalid
    obtain ⟨hs, ha, hdi, hdu⟩ := hvalid
    cases hfind : st.users.find? (fun u => u.id == req.userId) with
    | none =>
      rw [hfind] at h
      exact absurd h (by simp)
    | some dbUser =>
      rw [hfind] at h
      split at h
      · exact absurd h (by simp)
      · rename_i dbUser2 hbal2
        injection hbal2 with hdb
        subst hdb
        split at h
        · exact absurd h (by simp)
        rename_i hbal
        injection h with h2
        injection h2 with hst1 hord
        subst hst1
        subst hord
        have hideq : dbUser.id = req.userId := by simpa using List.find?_some hfind
        refine ⟨hs, ha, hdi, hdu,
          ⟨dbUser.balance, ?_, not_lt.mp hbal, ?_⟩, rfl, rfl, rfl, rfl, rfl⟩
        · unfold State.balanceOf
          rw [hfind]
          rfl
        · show State.balanceOf _ req.userId = _
          unfold State.balanceOf
          rw [find?_map_preserve _ _ _ (fun u => by
            split <;> rfl)]
          rw [hfind]
          simp [hideq]

/-- C4 witness: the amended theorem applied to a funded user and a
well-formed request, whose acceptance is evaluated concretely. -/
theorem c4_witness :
    c4wStateAfter.orders = c4wState.orders ++ [mkOrder c4wRequest 1] :=
  (c4_amended c4wState c4wRequest 1 c4wStateAfter (mkOrder c4wRequest 1) rfl).2.2.2.2.2.1

/-- With a non-zero cached price the settlement callback runs the
settlement transaction on the freshly recomputed exposure totals. -/
theorem c1_callback_eq (st : State) (ord : Order) (direction : String) (amt : ℚ)
    (uid : Nat) (p : ℚ) (hp : p ≠ 0) :
    settleCallback st ord direction amt uid (some p) none =
      settleOrderTx st ord.id uid direction amt ord.manipulatedEntryPrice
        (settlementAdjust p (getOrderTotals st.orders ord.symbolId).1
          (getOrderTotals st.orders ord.symbolId).2) := by
  unfold settleCallback jsOr
  simp [hp]

/-- After the first invocation the store holds the credited balance and
the settled order: exposure (a, 0) biases the cached price 200 down to
199.6, a win against entry 100. -/
theorem c1_once_eq (b a : ℚ) (ha : 0 < a) :
    c1Once b a =
      { users := [{ id := 1, balance := b + (a + a * (8/10)) }],
        orders := [c1OrderSettledOnce a] } := by
  unfold c1Once
  rw [c1_callback_eq _ _ _ _ _ _ (by norm_num)]
  have htot : getOrderTotals (c1State b a).orders (c1Order a).symbolId = (a, 0) := by
    simp [getOrderTotals, c1State, c1Order, show ("up" : String) ≠ "down" by decide]
  rw [htot]
  have hadj : settlementAdjust 200 (a, (0 : ℚ)).1 (a, (0 : ℚ)).2 = 1996/10 := by
    show settlementAdjust 200 a 0 = 1996/10
    unfold settlementAdjust
    rw [if_pos (show a > 0 from ha)]
    norm_num
  rw [hadj]
  have hwin : isWin "up" 100 (1996/10) = true := by norm_num [isWin]
  unfold settleOrderTx
  simp [settleUserUpdate, settleOrderUpdate, settleProfitLoss, hwin, c1State, c1Order,
    c1OrderSettledOnce]

/-- A second invocation settles again: exposure is now (0, 0), so the
cached price 200 is used unchanged, again a win, and the credit is
applied once more on top of the first one. -/
theorem c1_twice_eq (b a : ℚ) (ha : 0 < a) :
    c1Twice b a =
      { users := [{ id := 1, balance := b + (a + a * (8/10)) + (a + a * (8/10)) }],
        orders := [c1OrderSettledTwice a] } := by
  unfold c1Twice
  rw [c1_once_eq b a ha]
  rw [c1_callback_eq _ _ _ _ _ _ (by norm_num)]
  have htot : getOrderTotals
      (State.mk [{ id := 1, balance := b + (a + a * (8/10)) }]
        [c1OrderSettledOnce a]).orders (c1Order a).symbolId = (0, 0) := by
    simp [getOrderTotals, c1OrderSettledOnce, c1Order,
      show Outcome.win ≠ Outcome.pending by decide]
  rw [htot]
  have hadj : settlementAdjust 200 ((0 : ℚ), (0 : ℚ)).1 ((0 : ℚ), (0 : ℚ)).2 = 200 := by
    show settlementAdjust 200 0 0 = 200
    norm_num [settlementAdjust]
  rw [hadj]
  have hwin : isWin "up" 100 200 = true := by norm_num [isWin]
  unfold settleOrderTx
  simp [settleUserUpdate, settleOrderUpdate, settleProfitLoss, hwin, c1Order,
    c1OrderSettledOnce, c1OrderSettledTwice]

/-- C1 counterexample: settling the same order twice with a balance of 0
and a stake of 10 credits the user 18 after the first invocation and 36
after the second — the second invocation is not a no-op, so the
settlement flow has no transactional pending-outcome guard. -/
theorem c1_counterexample :
    (c1Once 0 10).balanceOf 1 = some 18 ∧
    (c1Twice 0 10).balanceOf 1 = some 36 ∧
    c1Twice 0 10 ≠ c1Once 0 10 := by
  rw [c1_once_eq 0 10 (by norm_num), c1_twice_eq 0 10 (by norm_num)]
  refine ⟨?_, ?_, ?_⟩
  · norm_num [State.balanceOf]
  · norm_num [State.balanceOf]
  · intro hcon
    have hbal := congrArg (fun s => s.balanceOf 1) hcon
    norm_num [State.balanceOf] at hbal

/-- C1 amended: the settlement transaction writes the terminal outcome
and the balance credit unconditionally, with no check that the outcome
is still pending — a duplicate invocation for an already settled order
rewrites the outcome and credits the winning stake a second time, so
at-most-once settlement rests solely on the in-process timer firing
once. -/
theorem c1_double_settlement (b a : ℚ) (ha : 0 < a) :
    (c1Once b a).balanceOf 1 = some (b + (a + a * (8/10))) ∧
    ((c1Once b a).findOrder 1).map Order.outcome = some Outcome.win ∧
    (c1Twice b a).balanceOf 1 = some (b + (a + a * (8/10)) + (a + a * (8/10))) ∧
    ((c1Twice b a).findOrder 1).map Order.outcome = some Outcome.win := by
  rw [c1_once_eq b a ha, c1_twice_eq b a ha]
  refine ⟨?_, ?_, ?_, ?_⟩ <;>
    simp [State.balanceOf, State.findOrder, c1OrderSettledOnce, c1OrderSettledTwice]

/-- C1 witness: the amended theorem applied at balance 2 and stake 10. -/
theorem c1_witness :
    (c1Once 2 10).balanceOf 1 = some (2 + (10 + 10 * (8/10))) :=
  (c1_double_settlement 2 10 (by norm_num)).1

end TradingServer
